import Mathlib

/-!
Shallow embedding of the conversation context manager
(`core/context_manager.py`) of the Coding-AI-MCP repository, together with
theorems checking the specification's claims about it.

Conventions of the embedding:
* Python strings are Lean `String`s; every Python string operation used by
  the source (`len`, `split`, `split('.')`, `strip`, `lower`, `in`,
  `join`, `re.findall(r'\b\w+\b', ...)`, slicing) is embedded as a
  structural function over the underlying character list, mirroring
  Python's semantics (`pyLen`, `pySplitWs`, `pySplitChar`, `pyStrip`,
  `pyLower`, `strContains`, `pyJoin`, `pyFindWords`, `pySlice`).
* Python floats are modelled as rationals (`ℚ`); `int(x)` is `pyInt`
  (truncation toward zero), machine integers are `ℕ`/`ℤ`.
* `datetime` timestamps are modelled as rationals ordered as time is.
* The two external adapters (the `tiktoken` tokenizer and the
  sentence-transformers embedding model) are oracle fields of `CMConfig`;
  the code's fallback paths (adapter absent) are embedded literally.
* Python's stable `list.sort(key=...)` (and its `reverse=True` variant) is
  embedded by the stable insertion sort `pySortBy`: an element is placed
  before the first element it must precede, which preserves the original
  relative order of key-equal elements exactly as CPython's stable sort
  does.
-/

/-! ### Python string primitives -/

/-- Python `len(s)` (number of code points). -/
def pyLen (s : String) : ℕ := s.data.length

/-- Lower-casing of one character, as Python `str.lower` acts on ASCII. -/
def lowChar (c : Char) : Char :=
  if 'A' ≤ c ∧ c ≤ 'Z' then Char.ofNat (c.toNat + 32) else c

/-- Python `s.lower()`. -/
def pyLower (s : String) : String := ⟨s.data.map lowChar⟩

/-- Auxiliary splitter for `pySplitChar`. -/
def splitOnCharAux (sep : Char) : List Char → List Char → List (List Char)
  | [], acc => [acc.reverse]
  | c :: cs, acc =>
    if c = sep then acc.reverse :: splitOnCharAux sep cs []
    else splitOnCharAux sep cs (c :: acc)

/-- Python `s.split(sep)` for a one-character separator. -/
def pySplitChar (sep : Char) (s : String) : List String :=
  (splitOnCharAux sep s.data []).map String.mk

/-- Auxiliary splitter for `pySplitWs`. -/
def splitWsAux : List Char → List Char → List (List Char)
  | [], acc => if acc.isEmpty then [] else [acc.reverse]
  | c :: cs, acc =>
    if c.isWhitespace then
      if acc.isEmpty then splitWsAux cs [] else acc.reverse :: splitWsAux cs []
    else splitWsAux cs (c :: acc)

/-- Python `s.split()`: split on whitespace runs, dropping empty pieces. -/
def pySplitWs (s : String) : List String := (splitWsAux s.data []).map String.mk

/-- Python `s.strip()`. -/
def pyStrip (s : String) : String :=
  ⟨((s.data.dropWhile Char.isWhitespace).reverse.dropWhile Char.isWhitespace).reverse⟩

/-- Python `pat in hay` on lists (contiguous-infix test). -/
def listInfix [BEq α] (pat : List α) : List α → Bool
  | [] => pat.isEmpty
  | a :: as => pat.isPrefixOf (a :: as) || listInfix pat as

/-- Python `pat in hay` on strings (substring test). -/
def strContains (hay pat : String) : Bool := listInfix pat.data hay.data

/-- Python `sep.join(parts)`. -/
def pyJoin (sep : String) : List String → String
  | [] => ""
  | [s] => s
  | s :: rest => s ++ sep ++ pyJoin sep rest

/-- A character matched by Python's regex class `\w`. -/
def isWordChar (c : Char) : Bool := c.isAlphanum || c = '_'

/-- Auxiliary scanner for `pyFindWords`. -/
def findWordsAux : List Char → List Char → List (List Char)
  | [], acc => if acc.isEmpty then [] else [acc.reverse]
  | c :: cs, acc =>
    if isWordChar c then findWordsAux cs (c :: acc)
    else if acc.isEmpty then findWordsAux cs []
    else acc.reverse :: findWordsAux cs []

/-- Python `re.findall(r'\b\w+\b', s)`: the maximal runs of word characters. -/
def pyFindWords (s : String) : List String := (findWordsAux s.data []).map String.mk

/-- Python `s[:n]` (prefix slice). -/
def pySlice (n : ℕ) (s : String) : String := ⟨s.data.take n⟩

/-- Deduplication keeping first occurrences; used to model Python `set`
accumulation where only membership and cardinality matter. -/
def dedupKeepFirst [DecidableEq α] : List α → List α → List α
  | _, [] => []
  | seen, a :: as =>
    if a ∈ seen then dedupKeepFirst seen as
    else a :: dedupKeepFirst (a :: seen) as

/-! ### Python numeric primitives -/

/-- Python `int(x)`: truncation toward zero. -/
def pyInt (q : ℚ) : ℤ :=
  if 0 ≤ q.num then ((q.num.toNat / q.den : ℕ) : ℤ)
  else -(((-q.num).toNat / q.den : ℕ) : ℤ)

/-- Python `x ** n` for a rational base and natural exponent. -/
def qpow (q : ℚ) : ℕ → ℚ
  | 0 => 1
  | n + 1 => q * qpow q n

/-- Floor of a rational, executable by the kernel. -/
def ratFloor (q : ℚ) : ℤ :=
  if 0 ≤ q.num then ((q.num.toNat / q.den : ℕ) : ℤ)
  else -((((-q.num).toNat + q.den - 1) / q.den : ℕ) : ℤ)

/-- Python `round(x, 2)` (round half to even at two decimals). -/
def pyRound2 (q : ℚ) : ℚ :=
  let y : ℚ := q * 100
  let n : ℤ := ratFloor y
  let frac : ℚ := y - n
  let r : ℤ :=
    if frac < 1/2 then n
    else if frac > 1/2 then n + 1
    else if n % 2 = 0 then n else n + 1
  (r : ℚ) / 100

/-! ### Data model (`models/base.py` and the dataclasses of
`core/context_manager.py`) -/

/-- `models/base.py`: `ChatMessage`. -/
structure ChatMessage where
  role : String
  content : String
deriving DecidableEq, Repr

/-- `core/context_manager.py`: `ConversationTurn`. -/
structure ConversationTurn where
  id : String
  user_message : ChatMessage
  assistant_message : ChatMessage
  timestamp : ℚ
  tokens_used : ℕ
  importance_score : ℚ
  summary : Option String := none
  code_blocks : List String := []
  attachments : List String := []
deriving DecidableEq, Repr

/-- `core/context_manager.py`: `ContextWindow`. -/
structure ContextWindow where
  messages : List ChatMessage
  total_tokens : ℚ
  summary : Option String := none
  key_points : Option (List String) := none
deriving DecidableEq, Repr

/-- `core/context_manager.py`: `ConversationSummary`. -/
structure ConversationSummary where
  period_start : ℚ
  period_end : ℚ
  summary_text : String
  key_topics : List String
  important_code : List String
  decisions_made : List String
  tokens_saved : ℤ
deriving DecidableEq, Repr

/-- `core/attachment_manager.py`: the part of `AttachmentContext` the
context manager reads (only `summary` is used). -/
structure AttachmentContext where
  summary : String
deriving DecidableEq, Repr

/-- Configuration and external adapters of a `ContextManager` instance:
`max_context_tokens` from `__init__`, plus the `tiktoken` tokenizer and
the sentence-transformers embedding model as oracles (`hasTokenizer` /
`hasEmbedding` are false on the `except` path of `__init__`). -/
structure CMConfig where
  max_context_tokens : ℕ
  hasTokenizer : Bool
  encodeLen : String → ℕ
  hasEmbedding : Bool
  semanticSim : String → String → ℚ

/-- Mutable state of a `ContextManager`: the turn store and the summary
list. -/
structure CMState where
  conversation_turns : List ConversationTurn
  summaries : List ConversationSummary
deriving DecidableEq, Repr

/-! ### Constants fixed by `ContextManager.__init__` -/

/-- `self.summary_threshold = 20`. -/
def summary_threshold : ℕ := 20

/-- `self.importance_decay = 0.95`. -/
def importance_decay : ℚ := 19/20

/-- `self.code_weight = 1.5`. -/
def code_weight : ℚ := 3/2

/-- `self.attachment_weight = 1.3`. -/
def attachment_weight : ℚ := 13/10

/-! ### Stable sort (Python `list.sort`) -/

/-- Insert `x` before the first element `y` with `ge x y`; keeps the
original relative order of elements that compare equal. -/
def pyInsertBy (ge : α → α → Bool) (x : α) : List α → List α
  | [] => [x]
  | y :: ys => if ge x y then x :: y :: ys else y :: pyInsertBy ge x ys

/-- Stable insertion sort. With `ge x y := key x ≤ key y` this is Python's
stable ascending `sort(key=...)`; with `ge x y := key y ≤ key x` it is
`sort(key=..., reverse=True)`. -/
def pySortBy (ge : α → α → Bool) : List α → List α
  | [] => []
  | x :: xs => pyInsertBy ge x (pySortBy ge xs)

/-! ### `_count_tokens`, `_calculate_importance_score` and similarity
helpers -/

/-- `_count_tokens`: tokenizer length if available, otherwise
`int(len(total_text.split()) * 1.33)`. -/
def countTokens (cfg : CMConfig) (messages : List ChatMessage) : ℕ :=
  let total_text := pyJoin " " (messages.map (fun m => m.content))
  if cfg.hasTokenizer then cfg.encodeLen total_text
  else (pyInt ((((pySplitWs total_text).length : ℚ)) * (133/100))).toNat

/-- The stop-word set of `_calculate_keyword_similarity.extract_keywords`. -/
def stop_words : List String :=
  ["the", "a", "an", "and", "or", "but", "in", "on", "at", "to", "for",
   "of", "with", "by", "is", "are", "was", "were", "be", "been", "have",
   "has", "had", "do", "does", "did", "will", "would", "could", "should",
   "may", "might", "can", "this", "that", "these", "those"]

/-- `extract_keywords` inside `_calculate_keyword_similarity`: words of the
lower-cased text, longer than 2 characters and not stop words, as a set
(modelled as a first-occurrence-deduplicated list). -/
def extractKeywords (text : String) : List String :=
  dedupKeepFirst []
    ((pyFindWords (pyLower text)).filter
      (fun w => decide (pyLen w > 2) && !(stop_words.contains w)))

/-- `_calculate_keyword_similarity`: Jaccard index of the two keyword
sets, `0.0` when either is empty. -/
def calculateKeywordSimilarity (text1 text2 : String) : ℚ :=
  let keywords1 := extractKeywords text1
  let keywords2 := extractKeywords text2
  if keywords1 = [] ∨ keywords2 = [] then 0
  else
    let intersection := keywords1.filter (fun w => keywords2.contains w)
    let union := dedupKeepFirst [] (keywords1 ++ keywords2)
    if union = [] then 0
    else (intersection.length : ℚ) / (union.length : ℚ)

/-- The complexity-keyword set of `_calculate_importance_score`. -/
def complexity_keywords : List String :=
  ["implement", "create", "build", "design", "architecture",
   "debug", "fix", "error", "problem", "issue",
   "explain", "how", "why", "what", "when"]

/-- `_calculate_importance_score`, translated branch for branch (note the
source's `if response_length > 500: ... elif response_length > 1000: ...`
order, which makes the `elif` arm unreachable). -/
def calculateImportanceScore (user_message assistant_message : ChatMessage)
    (code_blocks attachment_ids : List String) : ℚ :=
  let base_score : ℚ := 1
  let base_score := if code_blocks ≠ [] then base_score * code_weight else base_score
  let base_score :=
    if attachment_ids ≠ [] then base_score * attachment_weight else base_score
  let response_length := pyLen assistant_message.content
  let base_score :=
    if response_length > 500 then base_score * (12/10)
    else if response_length > 1000 then base_score * (14/10)
    else base_score
  let user_content := pyLower user_message.content
  let complexity_score : ℕ :=
    (complexity_keywords.filter (fun k => strContains user_content k)).length
  let base_score := base_score + (complexity_score : ℚ) * (1/10)
  min base_score 3

/-! ### `_select_relevant_turns` -/

/-- The per-turn relevance score of `_select_relevant_turns`, for the turn
at index `i` of `reversed(conversation_turns)` (so `i = 0` is the most
recent turn). -/
def scoreTurn (cfg : CMConfig) (current_message : String) (i : ℕ)
    (turn : ConversationTurn) : ℚ :=
  let score := turn.importance_score * qpow importance_decay i
  let score :=
    if cfg.hasEmbedding then
      score + cfg.semanticSim current_message
        (turn.user_message.content ++ " " ++ turn.assistant_message.content) * (1/2)
    else score
  score + calculateKeywordSimilarity current_message
    (turn.user_message.content ++ " " ++ turn.assistant_message.content) * (3/10)

/-- The greedy acceptance loop of `_select_relevant_turns`: accept scored
turns in list order while they fit, and stop at the first that does not
(`else: break`). -/
def selectLoop (available_tokens : ℚ) :
    List (ConversationTurn × ℚ) → ℚ → List ConversationTurn
  | [], _ => []
  | (turn, _) :: rest, used_tokens =>
    if used_tokens + (turn.tokens_used : ℚ) ≤ available_tokens then
      turn :: selectLoop available_tokens rest (used_tokens + (turn.tokens_used : ℚ))
    else []

/-- `_select_relevant_turns`: score every turn (most recent first), sort
by score descending (stable), greedily take a prefix that fits the budget,
then re-sort the accepted turns by timestamp ascending. -/
def selectRelevantTurns (cfg : CMConfig) (turns : List ConversationTurn)
    (current_message : String) (available_tokens : ℚ) : List ConversationTurn :=
  if turns = [] then []
  else
    let turn_scores :=
      (turns.reverse.enum).map (fun p => (p.2, scoreTurn cfg current_message p.1 p.2))
    let sorted := pySortBy (fun a b => decide (b.2 ≤ a.2)) turn_scores
    let selected_turns := selectLoop available_tokens sorted 0
    pySortBy (fun a b => decide (a.timestamp ≤ b.timestamp)) selected_turns

/-! ### `_extract_key_points` and `_get_relevant_summary` -/

/-- The key-indicator set of `_extract_key_points`. -/
def key_indicators : List String :=
  ["important", "note", "remember", "key", "main",
   "solution", "answer", "result", "conclusion"]

/-- `_extract_key_points`: qualifying sentences then short code blocks of
each turn, limited to the first 10 entries. -/
def extractKeyPoints (turns : List ConversationTurn) : List String :=
  let key_points := turns.flatMap (fun turn =>
    let sentences := pySplitChar '.' turn.assistant_message.content
    let sentencePoints := ((sentences.map pyStrip).filter (fun s =>
      decide (pyLen s > 20) &&
        key_indicators.any (fun ind => strContains (pyLower s) ind)))
    let codePoints := (turn.code_blocks.filter (fun c => decide (pyLen c < 200))).map
      (fun c => "Code: " ++ c)
    sentencePoints ++ codePoints)
  key_points.take 10

/-- `_get_relevant_summary`: best-scoring stored summary, returned only
when its score exceeds `0.5`. -/
def getRelevantSummary (summaries : List ConversationSummary)
    (current_message : String) : Option String :=
  if summaries = [] then none
  else
    let step := fun (acc : Option ConversationSummary × ℚ) (s : ConversationSummary) =>
      let topicScore : ℚ :=
        ((s.key_topics.filter
          (fun t => strContains (pyLower current_message) (pyLower t))).length : ℚ) * 1
      let score := topicScore + calculateKeywordSimilarity current_message s.summary_text
      if score > acc.2 then (some s, score) else acc
    let best := summaries.foldl step (none, 0)
    match best.1 with
    | some b => if best.2 > 1/2 then some b.summary_text else none
    | none => none

/-! ### `get_context_window` -/

/-- The attachment-context token estimate of `get_context_window`:
`len(ctx.summary.split()) * 1.3` summed over the contexts. -/
def attachmentTokensOf (attachment_contexts : List AttachmentContext) : ℚ :=
  (attachment_contexts.map
    (fun ctx => ((pySplitWs ctx.summary).length : ℚ) * (13/10))).sum

/-- `get_context_window`: empty window on an empty store, otherwise
reserve 500 system tokens, subtract query and attachment costs, select
turns, and report the window. -/
def getContextWindow (cfg : CMConfig) (st : CMState) (current_message : String)
    (attachment_contexts : List AttachmentContext) : ContextWindow :=
  if st.conversation_turns = [] then
    { messages := [], total_tokens := 0 }
  else
    let system_tokens : ℚ := 500
    let available_tokens := (cfg.max_context_tokens : ℚ) - system_tokens
    let current_tokens : ℕ := countTokens cfg [⟨"user", current_message⟩]
    let available_tokens := available_tokens - (current_tokens : ℚ)
    let attachment_tokens := attachmentTokensOf attachment_contexts
    let available_tokens := available_tokens - attachment_tokens
    let selected_turns :=
      selectRelevantTurns cfg st.conversation_turns current_message available_tokens
    let selected_messages :=
      selected_turns.flatMap (fun t => [t.user_message, t.assistant_message])
    let total_tokens : ℚ := (selected_turns.map (fun t => (t.tokens_used : ℚ))).sum
    let summary_text := getRelevantSummary st.summaries current_message
    let key_points := extractKeyPoints selected_turns
    { messages := selected_messages,
      total_tokens := total_tokens + system_tokens + (current_tokens : ℚ) + attachment_tokens,
      summary := summary_text,
      key_points := some key_points }

/-! ### Summarization (`_create_simple_summary`,
`_create_conversation_summary`, `_maybe_create_summary`) -/

/-- The importance-keyword set of `_create_simple_summary`. -/
def important_words : List String :=
  ["implement", "create", "solution", "problem", "error", "fix", "code",
   "function", "class", "method", "api", "database"]

/-- `_create_simple_summary`: score the stripped sentences of length at
least 20 by `min(len/100, 1)` plus one per keyword present, keep the top 5
(stable descending sort), and join them with `". "` plus a final `"."`. -/
def createSimpleSummary (text : String) : String :=
  let sentences := pySplitChar '.' text
  let sentence_scores := (sentences.map pyStrip).filterMap (fun s =>
    if pyLen s < 20 then none
    else
      let score : ℚ := min ((pyLen s : ℚ) / 100) 1
      let score := score +
        ((important_words.filter (fun w => strContains (pyLower s) w)).length : ℚ)
      some (s, score))
  let sorted := pySortBy (fun a b => decide (b.2 ≤ a.2)) sentence_scores
  let top_sentences := (sorted.take 5).map (fun p => p.1)
  pyJoin ". " top_sentences ++ "."

/-- The technical-term allowlist of `_create_conversation_summary`. -/
def tech_terms : List String :=
  ["python", "javascript", "react", "api", "database", "function",
   "class", "method"]

/-- The decision-indicator set of `_create_conversation_summary`. -/
def decision_indicators : List String :=
  ["solution", "approach", "recommend", "suggest", "should", "will"]

/-- `_create_conversation_summary`: `None` on an empty block, otherwise
the extractive summary record; `tokens_saved` is the sum of the block's
per-turn token counts minus the word-count × 1.3 estimate of the summary
text, truncated by `int(...)`. Python's `topics` set is modelled as a
first-occurrence-deduplicated list. -/
def createConversationSummary (turns : List ConversationTurn) :
    Option ConversationSummary :=
  match turns with
  | [] => none
  | t0 :: rest =>
    let all_text := (t0 :: rest).flatMap
      (fun t => [t.user_message.content, t.assistant_message.content])
    let code_blocks := (t0 :: rest).flatMap (fun t => t.code_blocks)
    let topics := dedupKeepFirst [] ((t0 :: rest).flatMap (fun t =>
      (((pyFindWords (pyLower
          (t.user_message.content ++ " " ++ t.assistant_message.content))).filter
        (fun w => (decide (pyLen w > 4) && w.data.any Char.isUpper) ||
          tech_terms.contains w)).take 5)))
    let decisions := ((t0 :: rest).filter (fun t =>
      decision_indicators.any
        (fun ind => strContains (pyLower t.assistant_message.content) ind))).map
      (fun t => pySlice 200 t.assistant_message.content ++ "...")
    let combined_text := pyJoin " " all_text
    let summary_text := createSimpleSummary combined_text
    let original_tokens : ℕ := ((t0 :: rest).map (fun t => t.tokens_used)).sum
    let summary_tokens : ℚ := ((pySplitWs summary_text).length : ℚ) * (13/10)
    let tokens_saved := pyInt ((original_tokens : ℚ) - summary_tokens)
    some { period_start := t0.timestamp
           period_end := (rest.getLastD t0).timestamp
           summary_text := summary_text
           key_topics := topics.take 10
           important_code := code_blocks.take 5
           decisions_made := decisions.take 3
           tokens_saved := tokens_saved }

/-- `_maybe_create_summary`: when the store has reached the threshold,
summarize the oldest `threshold // 2` turns, append the summary and evict
them (`popleft` that many times). -/
def maybeCreateSummary (st : CMState) : CMState :=
  if st.conversation_turns.length < summary_threshold then st
  else if st.conversation_turns.take (summary_threshold / 2) = [] then st
  else
    match createConversationSummary (st.conversation_turns.take (summary_threshold / 2)) with
    | none => st
    | some s =>
      { conversation_turns :=
          st.conversation_turns.drop (st.conversation_turns.take (summary_threshold / 2)).length
        summaries := st.summaries ++ [s] }

/-! ### `get_conversation_stats` -/

/-- The record returned by `get_conversation_stats` on a non-empty store. -/
structure ConversationStats where
  total_turns : ℕ
  total_tokens : ℕ
  average_importance : ℚ
  turns_with_code : ℕ
  turns_with_attachments : ℕ
  summaries_created : ℕ
  tokens_saved_by_summaries : ℤ
deriving DecidableEq, Repr

/-- `get_conversation_stats`: the empty dict (`none`) on an empty store,
otherwise the statistics record. -/
def getConversationStats (st : CMState) : Option ConversationStats :=
  if st.conversation_turns = [] then none
  else
    let total_turns := st.conversation_turns.length
    some { total_turns := total_turns
           total_tokens := (st.conversation_turns.map (fun t => t.tokens_used)).sum
           average_importance := pyRound2
             ((st.conversation_turns.map (fun t => t.importance_score)).sum
               / (total_turns : ℚ))
           turns_with_code :=
             (st.conversation_turns.filter (fun t => t.code_blocks ≠ [])).length
           turns_with_attachments :=
             (st.conversation_turns.filter (fun t => t.attachments ≠ [])).length
           summaries_created := st.summaries.length
           tokens_saved_by_summaries := (st.summaries.map (fun s => s.tokens_saved)).sum }

/-- The `total_turns` field of `get_conversation_stats`, when present. -/
def statsTotalTurns (st : CMState) : Option ℕ :=
  (getConversationStats st).map (fun s => s.total_turns)

/-! ### Concrete instances used to settle the claims -/

/-- A `ContextManager` whose `__init__` hit the `except` branch: no
tokenizer, no embedding model, and `max_context_tokens = 0` (a zero
budget). -/
def fallbackConfig : CMConfig :=
  { max_context_tokens := 0, hasTokenizer := false, encodeLen := fun _ => 0,
    hasEmbedding := false, semanticSim := fun _ _ => 0 }

/-- The same adapter-less manager with the default budget of 8000. -/
def wideConfig : CMConfig := { fallbackConfig with max_context_tokens := 8000 }

/-- A 1200-character assistant reply opening with a fenced code block. -/
def asstC1 : String := "```a```" ++ String.mk (List.replicate 1193 'z')

/-- A minimal stored turn (one-word user and assistant messages). -/
def turnC2 : ConversationTurn :=
  { id := "t1", user_message := ⟨"user", "a"⟩,
    assistant_message := ⟨"assistant", "b"⟩,
    timestamp := 0, tokens_used := 1, importance_score := 1 }

/-- Turn A of the greedy-stop scenario: score 2.5, cost 600 tokens. -/
def turnA3 : ConversationTurn :=
  { id := "A", user_message := ⟨"user", ""⟩, assistant_message := ⟨"assistant", ""⟩,
    timestamp := 1, tokens_used := 600, importance_score := 5/2 }

/-- Turn B of the greedy-stop scenario: lower score, cost 300 tokens. -/
def turnB3 : ConversationTurn :=
  { id := "B", user_message := ⟨"user", ""⟩, assistant_message := ⟨"assistant", ""⟩,
    timestamp := 0, tokens_used := 300, importance_score := 1 }

/-- A 20-character 3-word sentence with no scoring keywords. -/
def sentC6 : String := "aaaaaaaa bbbbbbbb cc"

/-- A turn text of two padded sentences; the summarizer re-joins its
stripped sentences and so emits fewer characters than it read. -/
def contentC6 : String := sentC6 ++ "." ++ String.mk (List.replicate 6 ' ') ++ sentC6

/-- First turn of the summarization counterexample block. `tokens_used`
is `_count_tokens` of its two messages under the word-count fallback. -/
def turnC6a : ConversationTurn :=
  { id := "c6a", user_message := ⟨"user", contentC6⟩,
    assistant_message := ⟨"assistant", ""⟩,
    timestamp := 0, tokens_used := 7, importance_score := 1 }

/-- Second turn of the summarization counterexample block. -/
def turnC6b : ConversationTurn := { turnC6a with id := "c6b", timestamp := 1 }

/-- A tiny turn whose block summary degenerates to `"."`. -/
def turnC6w : ConversationTurn :=
  { id := "w", user_message := ⟨"user", "hi"⟩, assistant_message := ⟨"assistant", "ok"⟩,
    timestamp := 0, tokens_used := 2, importance_score := 1 }

/-- The summary `_create_conversation_summary` produces for `[turnC6w]`. -/
def summaryC6w : ConversationSummary :=
  { period_start := 0, period_end := 0, summary_text := ".", key_topics := [],
    important_code := [], decisions_made := [], tokens_saved := 0 }

/-- The `i`-th turn of a 20-turn store at the summarization threshold. -/
def mkTurn9 (i : ℕ) : ConversationTurn :=
  { id := "t", user_message := ⟨"user", "hi"⟩, assistant_message := ⟨"assistant", "ok"⟩,
    timestamp := (i : ℚ), tokens_used := 2, importance_score := 1 }

/-- A store holding exactly `summary_threshold = 20` turns. -/
def stC9 : CMState := ⟨(List.range 20).map mkTurn9, []⟩

/-- The `tokens_saved` field of the summary of a block, `0` when the block
is empty (projection used to state the summarization claims). -/
def csummaryTokensSaved (turns : List ConversationTurn) : ℤ :=
  (createConversationSummary turns).elim 0 (fun s => s.tokens_saved)

/-- The character length of the summary text of a block, `0` when the
block is empty. -/
def csummaryTextLen (turns : List ConversationTurn) : ℕ :=
  (createConversationSummary turns).elim 0 (fun s => pyLen s.summary_text)

/-- The character length of the concatenation of the original turn texts
of a block. -/
def concatTextLen (turns : List ConversationTurn) : ℕ :=
  (turns.map (fun t => pyLen t.user_message.content + pyLen t.assistant_message.content)).sum

/-! ### Helper lemmas -/

/-- `int(x)` of a non-negative value is non-negative. -/
theorem pyInt_nonneg (q : ℚ) (h : 0 ≤ q) : 0 ≤ pyInt q := by
  unfold pyInt
  rw [if_pos (Rat.num_nonneg.2 h)]
  positivity

/-- Token sums over turn lists are non-negative. -/
theorem sum_tokens_nonneg (l : List ConversationTurn) :
    0 ≤ (l.map (fun t => (t.tokens_used : ℚ))).sum := by
  induction l with
  | nil => simp
  | cons t ts ih =>
    simp only [List.map_cons, List.sum_cons]
    have : (0 : ℚ) ≤ (t.tokens_used : ℚ) := Nat.cast_nonneg _
    linarith

/-- The attachment-context token estimate is non-negative. -/
theorem attachmentTokensOf_nonneg (atts : List AttachmentContext) :
    0 ≤ attachmentTokensOf atts := by
  unfold attachmentTokensOf
  induction atts with
  | nil => simp
  | cons a as ih =>
    simp only [List.map_cons, List.sum_cons]
    have h1 : (0 : ℚ) ≤ ((pySplitWs a.summary).length : ℚ) * (13/10) := by positivity
    linarith

/-- `pyInsertBy` adds exactly its element to any mapped sum. -/
theorem map_sum_pyInsertBy (ge : α → α → Bool) (f : α → ℚ) (x : α) (l : List α) :
    ((pyInsertBy ge x l).map f).sum = f x + (l.map f).sum := by
  induction l with
  | nil => simp [pyInsertBy]
  | cons y ys ih =>
    by_cases h : ge x y = true
    · rw [pyInsertBy, if_pos h]; simp
    · rw [pyInsertBy, if_neg h]
      simp only [List.map_cons, List.sum_cons, ih]
      ring

/-- The stable sort preserves mapped sums. -/
theorem map_sum_pySortBy (ge : α → α → Bool) (f : α → ℚ) (l : List α) :
    ((pySortBy ge l).map f).sum = (l.map f).sum := by
  induction l with
  | nil => rfl
  | cons x xs ih =>
    rw [pySortBy, map_sum_pyInsertBy]
    simp [ih]

/-- Membership in an insertion. -/
theorem mem_pyInsertBy (ge : α → α → Bool) (x : α) (l : List α) (z : α)
    (hz : z ∈ pyInsertBy ge x l) : z = x ∨ z ∈ l := by
  induction l with
  | nil => simp [pyInsertBy] at hz; exact Or.inl hz
  | cons y ys ih =>
    by_cases h : ge x y = true
    · rw [pyInsertBy, if_pos h] at hz
      rcases List.mem_cons.1 hz with rfl | hz2
      · exact Or.inl rfl
      · exact Or.inr hz2
    · rw [pyInsertBy, if_neg h] at hz
      rcases List.mem_cons.1 hz with rfl | hz2
      · exact Or.inr (List.mem_cons_self _ _)
      · rcases ih hz2 with h3 | h3
        · exact Or.inl h3
        · exact Or.inr (List.mem_cons_of_mem _ h3)

/-- Insertion into a list that is pairwise ordered by `ge` stays pairwise
ordered, when `ge` is total and transitive. -/
theorem pairwise_pyInsertBy (ge : α → α → Bool)
    (htot : ∀ a b, ge a b = true ∨ ge b a = true)
    (htrans : ∀ a b c, ge a b = true → ge b c = true → ge a c = true)
    (x : α) (l : List α) (hl : l.Pairwise (fun a b => ge a b = true)) :
    (pyInsertBy ge x l).Pairwise (fun a b => ge a b = true) := by
  induction l with
  | nil => simp [pyInsertBy]
  | cons y ys ih =>
    rw [List.pairwise_cons] at hl
    obtain ⟨hy, hys⟩ := hl
    by_cases h : ge x y = true
    · rw [pyInsertBy, if_pos h]
      refine List.Pairwise.cons ?_ (List.Pairwise.cons hy hys)
      intro z hz
      rcases List.mem_cons.1 hz with rfl | hz2
      · exact h
      · exact htrans x y z h (hy z hz2)
    · rw [pyInsertBy, if_neg h]
      refine List.Pairwise.cons ?_ (ih hys)
      intro z hz
      rcases mem_pyInsertBy ge x ys z hz with rfl | hz2
      · rcases htot z y with hzy | hyz
        · exact absurd hzy h
        · exact hyz
      · exact hy z hz2

/-- The stable sort produces a list pairwise ordered by `ge`, when `ge`
is total and transitive. -/
theorem pairwise_pySortBy (ge : α → α → Bool)
    (htot : ∀ a b, ge a b = true ∨ ge b a = true)
    (htrans : ∀ a b c, ge a b = true → ge b c = true → ge a c = true)
    (l : List α) : (pySortBy ge l).Pairwise (fun a b => ge a b = true) := by
  induction l with
  | nil => simp [pySortBy]
  | cons x xs ih =>
    rw [pySortBy]
    exact pairwise_pyInsertBy ge htot htrans x (pySortBy ge xs) ih

/-- The greedy loop either selects nothing or keeps the accumulated cost
within the budget. -/
theorem selectLoop_spec (avail : ℚ) (l : List (ConversationTurn × ℚ)) :
    ∀ used : ℚ,
      selectLoop avail l used = [] ∨
      used + ((selectLoop avail l used).map (fun t => (t.tokens_used : ℚ))).sum ≤ avail := by
  induction l with
  | nil => intro used; left; rfl
  | cons p rest ih =>
    intro used
    obtain ⟨t, sc⟩ := p
    by_cases h : used + (t.tokens_used : ℚ) ≤ avail
    · right
      rw [selectLoop, if_pos h]
      rcases ih (used + (t.tokens_used : ℚ)) with h2 | h2
      · rw [h2]; simpa using h
      · simp only [List.map_cons, List.sum_cons]
        linarith
    · left
      rw [selectLoop, if_neg h]

/-- The turns selected by `_select_relevant_turns` either amount to no
tokens at all or fit within the available budget. -/
theorem sum_selectRelevantTurns (cfg : CMConfig) (turns : List ConversationTurn)
    (current : String) (avail : ℚ) :
    ((selectRelevantTurns cfg turns current avail).map (fun t => (t.tokens_used : ℚ))).sum = 0 ∨
    ((selectRelevantTurns cfg turns current avail).map (fun t => (t.tokens_used : ℚ))).sum ≤ avail := by
  unfold selectRelevantTurns
  by_cases h : turns = []
  · left; rw [if_pos h]; rfl
  · rw [if_neg h, map_sum_pySortBy]
    rcases selectLoop_spec avail _ 0 with h2 | h2
    · left; rw [h2]; rfl
    · right; linarith

/-- `_select_relevant_turns` returns its turns in non-decreasing timestamp
order. -/
theorem pairwise_selectRelevantTurns (cfg : CMConfig) (turns : List ConversationTurn)
    (current : String) (avail : ℚ) :
    (selectRelevantTurns cfg turns current avail).Pairwise
      (fun a b => a.timestamp ≤ b.timestamp) := by
  unfold selectRelevantTurns
  by_cases h : turns = []
  · rw [if_pos h]; exact List.Pairwise.nil
  · rw [if_neg h]
    have hp := pairwise_pySortBy (fun a b : ConversationTurn => decide (a.timestamp ≤ b.timestamp))
      (fun a b => by
        rcases le_total a.timestamp b.timestamp with h1 | h1
        · exact Or.inl (decide_eq_true h1)
        · exact Or.inr (decide_eq_true h1))
      (fun a b c h1 h2 => decide_eq_true (le_trans (of_decide_eq_true h1) (of_decide_eq_true h2)))
      (selectLoop avail
        (pySortBy (fun a b => decide (b.2 ≤ a.2))
          ((turns.reverse.enum).map (fun p => (p.2, scoreTurn cfg current p.1 p.2)))) 0)
    exact hp.imp (fun hab => of_decide_eq_true hab)

/-- Decomposition of the window's reported token total on a non-empty
store. -/
theorem window_total_eq (cfg : CMConfig) (st : CMState) (current : String)
    (atts : List AttachmentContext) (h : st.conversation_turns ≠ []) :
    (getContextWindow cfg st current atts).total_tokens =
      ((selectRelevantTurns cfg st.conversation_turns current
          ((cfg.max_context_tokens : ℚ) - 500 - (countTokens cfg [⟨"user", current⟩] : ℚ)
            - attachmentTokensOf atts)).map (fun t => (t.tokens_used : ℚ))).sum
        + 500 + (countTokens cfg [⟨"user", current⟩] : ℚ) + attachmentTokensOf atts := by
  simp only [getContextWindow, if_neg h]

/-- The window's message list on a non-empty store is the flattened pairs
of the selected turns. -/
theorem window_messages_eq (cfg : CMConfig) (st : CMState) (current : String)
    (atts : List AttachmentContext) (h : st.conversation_turns ≠ []) :
    (getContextWindow cfg st current atts).messages =
      (selectRelevantTurns cfg st.conversation_turns current
          ((cfg.max_context_tokens : ℚ) - 500 - (countTokens cfg [⟨"user", current⟩] : ℚ)
            - attachmentTokensOf atts)).flatMap
        (fun t => [t.user_message, t.assistant_message]) := by
  simp only [getContextWindow, if_neg h]

/-- When the store has reached the threshold, `_maybe_create_summary`
appends one summary and evicts the oldest `threshold // 2` turns. -/
theorem maybeCreateSummary_of_ge (st : CMState)
    (h : summary_threshold ≤ st.conversation_turns.length) :
    ∃ s, maybeCreateSummary st =
      { conversation_turns := st.conversation_turns.drop (summary_threshold / 2),
        summaries := st.summaries ++ [s] } := by
  have h10 : summary_threshold / 2 ≤ st.conversation_turns.length :=
    le_trans (Nat.div_le_self _ _) h
  have hlen : (st.conversation_turns.take (summary_threshold / 2)).length
      = summary_threshold / 2 := by
    rw [List.length_take]
    exact min_eq_left h10
  have hne : st.conversation_turns.take (summary_threshold / 2) ≠ [] := by
    intro heq
    rw [heq] at hlen
    simp [summary_threshold] at hlen
  obtain ⟨t0, rest, hcons⟩ := List.exists_cons_of_ne_nil hne
  have hsum : ∃ s, createConversationSummary
      (st.conversation_turns.take (summary_threshold / 2)) = some s := by
    rw [hcons]; exact ⟨_, rfl⟩
  obtain ⟨s, hs⟩ := hsum
  refine ⟨s, ?_⟩
  rw [maybeCreateSummary.eq_def, if_neg (not_lt.2 h), if_neg hne, hs]
  simp only [hlen]

/-! ### Claim theorems -/

set_option maxRecDepth 40000 in
unseal Rat.mul Rat.add Rat.inv Rat.sub in
/-- C1: the spec says a 1200-character assistant reply with a code block
and no complexity keywords scores `min(1.0 × 1.5 × 1.4, 3.0) = 2.1`, the
larger length threshold winning. The source's `if response_length > 500:
... elif response_length > 1000:` tests the smaller threshold first, so
the ×1.4 arm is unreachable and the computed score is
`1.0 × 1.5 × 1.2 = 1.8`, not `2.1`. -/
theorem C1_length_bonus_dead_elif :
    pyLen asstC1 = 1200 ∧
    calculateImportanceScore ⟨"user", "zzz zzz"⟩ ⟨"assistant", asstC1⟩ ["```a```"] []
      = 18/10 ∧
    (18/10 : ℚ) ≠ 21/10 := by
  decide

/-- C7: for every input turn — any user message, assistant message, code
block list and attachment list — the importance score computed at
insertion lies in `[1.0, 3.0]`. -/
theorem C7_importance_score_range (u a : ChatMessage) (cb att : List String) :
    1 ≤ calculateImportanceScore u a cb att ∧ calculateImportanceScore u a cb att ≤ 3 := by
  constructor
  · have hx : (0:ℚ) ≤
        ((complexity_keywords.filter (fun k => strContains (pyLower u.content) k)).length : ℚ)
          * (1/10) := by positivity
    simp only [calculateImportanceScore]
    apply le_min _ (by norm_num)
    split_ifs <;> (try simp only [code_weight, attachment_weight]) <;> linarith
  · simp only [calculateImportanceScore]
    exact min_le_right _ _

unseal Rat.mul Rat.add Rat.inv Rat.sub in
/-- C3: selection is strict greedy-stop — the first scored candidate that
does not fit the remaining budget ends selection (the general conjunct),
and in the concrete scenario with budget 500 and candidates of cost 600
(higher score) and 300 (lower score, which alone would fit), neither is
selected. -/
theorem C3_greedy_strict_stop :
    (∀ (available used : ℚ) (t : ConversationTurn) (sc : ℚ)
        (rest : List (ConversationTurn × ℚ)),
      ¬(used + (t.tokens_used : ℚ) ≤ available) →
      selectLoop available ((t, sc) :: rest) used = []) ∧
    ((500 : ℚ) < (0 : ℚ) + (turnA3.tokens_used : ℚ) ∧
      (turnB3.tokens_used : ℚ) ≤ 500 ∧
      selectRelevantTurns fallbackConfig [turnB3, turnA3] "" 500 = []) := by
  constructor
  · intro available used t sc rest h
    rw [selectLoop, if_neg h]
  · decide

unseal Rat.mul Rat.add Rat.inv Rat.sub in
/-- Witness for C3: the strict-stop conjunct applied to the concrete
scored candidates of the scenario. -/
theorem C3_greedy_strict_stop_witness :
    selectLoop 500 [(turnA3, (5/2 : ℚ)), (turnB3, 1)] 0 = [] :=
  C3_greedy_strict_stop.1 500 0 turnA3 (5/2) [(turnB3, 1)] (by decide)

unseal Rat.mul Rat.add Rat.inv Rat.sub in
/-- C5 (counterexample): on an empty Turn Store, `get_context_window`
returns `total_tokens = 0`, not the claimed query cost plus the 500-token
reserve (which would be `5 + 500 = 505` for this query under the
word-count fallback). -/
theorem C5_empty_store_counterexample :
    (getContextWindow fallbackConfig ⟨[], []⟩ "fix the login bug" []).messages = [] ∧
    (getContextWindow fallbackConfig ⟨[], []⟩ "fix the login bug" []).total_tokens = 0 ∧
    (countTokens fallbackConfig [⟨"user", "fix the login bug"⟩] : ℚ) + 500 = 505 ∧
    (getContextWindow fallbackConfig ⟨[], []⟩ "fix the login bug" []).total_tokens ≠
      (countTokens fallbackConfig [⟨"user", "fix the login bug"⟩] : ℚ) + 500 := by
  decide

/-- C5 (amended): on an empty Turn Store, `get_context_window` returns
the fully empty window — zero messages and zero total tokens — for every
configuration, query and attachment list. -/
theorem C5_empty_store_window (cfg : CMConfig) (summaries : List ConversationSummary)
    (query : String) (atts : List AttachmentContext) :
    getContextWindow cfg ⟨[], summaries⟩ query atts =
      { messages := [], total_tokens := 0 } := by
  rw [getContextWindow.eq_def]
  simp

/-- C4 (counterexample): on an empty store `get_conversation_stats`
returns the empty dict — there is no `total_turns` field at all, so the
claim fails for the empty sequence of recorded turns. -/
theorem C4_empty_stats_counterexample :
    getConversationStats ⟨[], []⟩ = none ∧ statsTotalTurns ⟨[], []⟩ ≠ some 0 := by
  decide

/-- C4 (amended): whenever the store is non-empty, `total_turns` equals
the number of resident turns; in particular, after a summarization pass on
a store at or above the threshold, it equals the original count minus the
evicted `threshold // 2` oldest turns, never counting evicted ones. -/
theorem C4_total_turns_resident (st : CMState) :
    (st.conversation_turns ≠ [] → statsTotalTurns st = some st.conversation_turns.length) ∧
    (summary_threshold ≤ st.conversation_turns.length →
      statsTotalTurns (maybeCreateSummary st) =
        some (st.conversation_turns.length - summary_threshold / 2)) := by
  constructor
  · intro h
    simp [statsTotalTurns, getConversationStats, h]
  · intro h
    obtain ⟨s, hs⟩ := maybeCreateSummary_of_ge st h
    have ht : summary_threshold = 20 := rfl
    have hne : st.conversation_turns.drop (summary_threshold / 2) ≠ [] := by
      intro heq
      have hlen := List.length_drop (summary_threshold / 2) st.conversation_turns
      rw [heq] at hlen
      simp only [List.length_nil] at hlen
      omega
    rw [hs]
    simp [statsTotalTurns, getConversationStats, hne, List.length_drop]

unseal Rat.mul Rat.add Rat.inv Rat.sub in
/-- C2 (counterexample): with a store of one turn and a zero budget, the
query's own cost makes the reported total 501, which exceeds the budget
plus the 500-token reserve — the claimed bound fails. -/
theorem C2_budget_exceeded_counterexample :
    (getContextWindow fallbackConfig ⟨[turnC2], []⟩ "hi" []).total_tokens = 501 ∧
    ¬((getContextWindow fallbackConfig ⟨[turnC2], []⟩ "hi" []).total_tokens
        ≤ (fallbackConfig.max_context_tokens : ℚ) + 500) := by
  decide

/-- C2 (amended): the window's total token count never exceeds the budget
whenever the reserve plus the query and attachment costs fit within the
budget, and in general never exceeds the larger of the budget and that
fixed overhead. -/
theorem C2_budget_bound (cfg : CMConfig) (st : CMState) (current : String)
    (atts : List AttachmentContext) :
    ((500 : ℚ) + (countTokens cfg [⟨"user", current⟩] : ℚ) + attachmentTokensOf atts
        ≤ (cfg.max_context_tokens : ℚ) →
      (getContextWindow cfg st current atts).total_tokens ≤ (cfg.max_context_tokens : ℚ)) ∧
    (getContextWindow cfg st current atts).total_tokens ≤
      max ((cfg.max_context_tokens : ℚ))
        (500 + (countTokens cfg [⟨"user", current⟩] : ℚ) + attachmentTokensOf atts) := by
  have hcur : (0:ℚ) ≤ (countTokens cfg [⟨"user", current⟩] : ℚ) := Nat.cast_nonneg _
  have hatt := attachmentTokensOf_nonneg atts
  by_cases h : st.conversation_turns = []
  · have h0 : (getContextWindow cfg st current atts).total_tokens = 0 := by
      rw [getContextWindow.eq_def, if_pos h]
    rw [h0]
    exact ⟨fun _ => Nat.cast_nonneg _, le_max_of_le_right (by linarith)⟩
  · rw [window_total_eq cfg st current atts h]
    rcases sum_selectRelevantTurns cfg st.conversation_turns current
      ((cfg.max_context_tokens : ℚ) - 500 - (countTokens cfg [⟨"user", current⟩] : ℚ)
        - attachmentTokensOf atts) with h2 | h2
    · rw [h2]
      exact ⟨fun h3 => by linarith, le_max_of_le_right (by linarith)⟩
    · exact ⟨fun h3 => by linarith, le_max_of_le_left (by linarith)⟩

unseal Rat.mul Rat.add Rat.inv Rat.sub in
/-- Witness for C2: with the default 8000-token budget the overhead fits,
so the one-turn window stays within the budget. -/
theorem C2_budget_bound_witness :
    (getContextWindow wideConfig ⟨[turnC2], []⟩ "hi" []).total_tokens
      ≤ (wideConfig.max_context_tokens : ℚ) :=
  (C2_budget_bound wideConfig ⟨[turnC2], []⟩ "hi" []).1 (by decide)

/-- C10: the window built from a non-empty store always accounts for the
500-token system reserve plus the query and attachment costs on top of
the selected turns — so even a zero-turn selection reports at least 500
tokens — while an empty store reports exactly 0. -/
theorem C10_reserve_floor (cfg : CMConfig) (st : CMState) (q : String)
    (atts : List AttachmentContext) :
    (st.conversation_turns = [] → (getContextWindow cfg st q atts).total_tokens = 0) ∧
    (st.conversation_turns ≠ [] →
      (500 : ℚ) ≤ (getContextWindow cfg st q atts).total_tokens ∧
      (getContextWindow cfg st q atts).total_tokens =
        ((selectRelevantTurns cfg st.conversation_turns q
            ((cfg.max_context_tokens : ℚ) - 500 - (countTokens cfg [⟨"user", q⟩] : ℚ)
              - attachmentTokensOf atts)).map (fun t => (t.tokens_used : ℚ))).sum
          + 500 + (countTokens cfg [⟨"user", q⟩] : ℚ) + attachmentTokensOf atts) := by
  constructor
  · intro h
    rw [getContextWindow.eq_def, if_pos h]
  · intro h
    refine ⟨?_, window_total_eq cfg st q atts h⟩
    rw [window_total_eq cfg st q atts h]
    have h1 := sum_tokens_nonneg (selectRelevantTurns cfg st.conversation_turns q
      ((cfg.max_context_tokens : ℚ) - 500 - (countTokens cfg [⟨"user", q⟩] : ℚ)
        - attachmentTokensOf atts))
    have h2 : (0:ℚ) ≤ (countTokens cfg [⟨"user", q⟩] : ℚ) := Nat.cast_nonneg _
    have h3 := attachmentTokensOf_nonneg atts
    linarith

unseal Rat.mul Rat.add Rat.inv Rat.sub in
/-- Witness for C10: the zero-budget window over a one-turn store selects
nothing yet reports at least the 500-token reserve. -/
theorem C10_reserve_floor_witness :
    (500:ℚ) ≤ (getContextWindow fallbackConfig ⟨[turnC2], []⟩ "hi" []).total_tokens :=
  ((C10_reserve_floor fallbackConfig ⟨[turnC2], []⟩ "hi" []).2 (by decide)).1

/-- C8: the messages of every returned context window are the
user/assistant pairs of a turn list in non-decreasing timestamp order,
whatever relevance order selection used. -/
theorem C8_messages_chronological (cfg : CMConfig) (st : CMState) (q : String)
    (atts : List AttachmentContext) :
    ∃ sel : List ConversationTurn,
      sel.Pairwise (fun a b => a.timestamp ≤ b.timestamp) ∧
      (getContextWindow cfg st q atts).messages =
        sel.flatMap (fun t => [t.user_message, t.assistant_message]) := by
  by_cases h : st.conversation_turns = []
  · refine ⟨[], List.Pairwise.nil, ?_⟩
    rw [getContextWindow.eq_def, if_pos h]
    rfl
  · exact ⟨_, pairwise_selectRelevantTurns cfg st.conversation_turns q _,
      window_messages_eq cfg st q atts h⟩

unseal Rat.mul Rat.add Rat.inv Rat.sub in
/-- C6 (counterexample): a two-turn block whose summary text (87
characters) is strictly shorter than the concatenated original texts (94
characters) still gets `tokens_saved = -1 < 0`, because the word-count ×
1.3 estimate of the summary exceeds the turns' stored token counts. -/
theorem C6_tokens_saved_counterexample :
    csummaryTextLen [turnC6a, turnC6b] < concatTextLen [turnC6a, turnC6b] ∧
    (createConversationSummary [turnC6a, turnC6b]).isSome = true ∧
    csummaryTokensSaved [turnC6a, turnC6b] < 0 := by
  decide

/-- C6 (amended): `tokens_saved` of a created summary is non-negative
whenever the summary's estimated token count (word count × 1.3) does not
exceed the block's total stored token count — character-level shortness
alone does not suffice. -/
theorem C6_tokens_saved_nonneg (turns : List ConversationTurn) (s : ConversationSummary)
    (h : createConversationSummary turns = some s)
    (h2 : ((pySplitWs s.summary_text).length : ℚ) * (13/10)
        ≤ (((turns.map (fun t => t.tokens_used)).sum : ℕ) : ℚ)) :
    0 ≤ s.tokens_saved := by
  cases turns with
  | nil => simp [createConversationSummary] at h
  | cons t0 rest =>
    rw [createConversationSummary] at h
    rw [Option.some.injEq] at h
    subst h
    dsimp only at h2 ⊢
    apply pyInt_nonneg
    rw [sub_nonneg]
    exact h2

unseal Rat.mul Rat.add Rat.inv Rat.sub in
/-- Witness for C6: the degenerate one-turn block whose summary is `"."`
satisfies the token-estimate hypothesis, so its `tokens_saved` is
non-negative. -/
theorem C6_tokens_saved_nonneg_witness : 0 ≤ csummaryTokensSaved [turnC6w] := by
  have h : createConversationSummary [turnC6w] = some summaryC6w := by decide
  have h2 := C6_tokens_saved_nonneg [turnC6w] summaryC6w h (by decide)
  simpa [csummaryTokensSaved, h] using h2

/-- C9: when the store holds exactly the threshold of 20 turns, the
summarization pass evicts the oldest 10, appends one summary, and an
immediate second pass (store now below threshold) changes nothing. -/
theorem C9_summarization_idempotent (st : CMState)
    (h : st.conversation_turns.length = 20) :
    (maybeCreateSummary st).conversation_turns.length = 10 ∧
    (maybeCreateSummary st).summaries.length = st.summaries.length + 1 ∧
    maybeCreateSummary (maybeCreateSummary st) = maybeCreateSummary st := by
  have hth : summary_threshold ≤ st.conversation_turns.length := by
    rw [h]
    decide
  obtain ⟨s, hs⟩ := maybeCreateSummary_of_ge st hth
  have hlen10 : (maybeCreateSummary st).conversation_turns.length = 10 := by
    rw [hs]
    simp [List.length_drop, h, summary_threshold]
  refine ⟨hlen10, ?_, ?_⟩
  · rw [hs]
    simp
  · rw [maybeCreateSummary.eq_def (maybeCreateSummary st), if_pos]
    rw [hlen10]
    decide

unseal Rat.mul Rat.add Rat.inv Rat.sub in
/-- Witness for C9: the concrete 20-turn store `stC9`. -/
theorem C9_summarization_idempotent_witness :
    (maybeCreateSummary stC9).conversation_turns.length = 10 ∧
    (maybeCreateSummary stC9).summaries.length = stC9.summaries.length + 1 ∧
    maybeCreateSummary (maybeCreateSummary stC9) = maybeCreateSummary stC9 :=
  C9_summarization_idempotent stC9 (by decide)

unseal Rat.mul Rat.add Rat.inv Rat.sub in
/-- Witness for C4: a one-turn store reports `total_turns = 1`. -/
theorem C4_total_turns_resident_witness :
    statsTotalTurns ⟨[turnC2], []⟩ = some 1 := by
  have h := (C4_total_turns_resident ⟨[turnC2], []⟩).1 (by decide)
  simpa using h
